import Mathlib

/-!
# Elasticsearch client: request/response translation layer

A shallow embedding of `client.go` and `type.go`.

Conventions of the embedding.

* A Go `string` is a Lean `String` (text in UTF-8).  `len(p) > 0` is `p.length > 0`
  and the byte test `p[0] != '/'` is the test on the first character, `'/'`
  being a one-byte character.
* A Go `error` result is an `Option GoError`: `none` is `nil`.
* A value of type `interface{}` handed to `fmt` is a `Value`.
* The collaborators outside the package (`encoding/json`, the validation done
  by `http.NewRequest`, the HTTP transport behind `http.Client.Do`) are
  parameters: the fields of `Std` and of `HttpClient`.
* `defer resp.Body.Close()` releases a resource and computes nothing; it has
  no counterpart here.
-/

set_option linter.dupNamespace false

namespace Elasticsearch

/-! ## Data model (`type.go`) -/

/-- Go values passed as `interface{}`.  The nil interface, strings, integers and
booleans are given as such.  A value of any other type (a `float64`, a slice,
a struct, ...) is given by what `fmt` prints for it: the name of its type, as
`%T` prints it, and its text, as `%v` prints it; the float `1.5` is
`other "float64" "1.5"`. -/
inductive Value where
  | nil
  | str (s : String)
  | int (i : Int)
  | bool (b : Bool)
  | other (typeName : String) (text : String)
  deriving DecidableEq, Repr

/-- Type `Q`, the query arguments: `map[string]interface{}`.  The list gives the
entries in the order in which `range` visits them; the keys of a map are
distinct (`Q.WF`). -/
abbrev Q := List (String × Value)

/-- The keys of a map are pairwise distinct. -/
def Q.WF (query : Q) : Prop := (query.map Prod.fst).Nodup

instance (query : Q) : Decidable (Q.WF query) := by
  unfold Q.WF; infer_instance

/-- Type `Acknowledgement`. -/
structure Acknowledgement where
  Acknowledged : Bool
  ShardsAcknowledged : Bool
  deriving DecidableEq, Repr

/-- Type `RootCause` (the field `Type` is spelled `Type_`). -/
structure RootCause where
  Type_ : String
  Reason : String
  deriving DecidableEq, Repr

/-- Type `ErrorError`. -/
structure ErrorError where
  RootCause : List RootCause
  deriving DecidableEq, Repr

/-- Type `Error`. -/
structure Error where
  Err : ErrorError
  deriving DecidableEq, Repr

/-- Non-nil values of the Go interface `error` that occur in the package. -/
inductive GoError where
  /-- the value made by `fmt.Errorf` -/
  | errorString (msg : String)
  /-- a `*Error` of this package -/
  | service (e : Error)
  /-- an error made by `encoding/json`, `net/http` or the transport -/
  | external (msg : String)
  deriving DecidableEq, Repr

deriving instance DecidableEq for Except

/-! ## The part of `fmt` that the package uses -/

/-- The Go type name that `fmt` prints for an operand. -/
def Value.typeName : Value → String
  | .nil => "<nil>"
  | .str _ => "string"
  | .int _ => "int"
  | .bool _ => "bool"
  | .other t _ => t

/-- Function `fmt.Sprint` on one operand (the default format `%v`). -/
def Sprint : Value → String
  | .nil => "<nil>"
  | .str s => s
  | .int i => toString i
  | .bool b => if b then "true" else "false"
  | .other _ text => text

/-- The marker `%!verb(type=value)` that `fmt` prints for a verb that does not
fit its operand. -/
def badVerb (verb : Char) (a : Value) : List Char :=
  match a with
  | .nil => ['%', '!', verb, '('] ++ "<nil>".data ++ [')']
  | _ => ['%', '!', verb, '('] ++ a.typeName.data ++ ['='] ++ (Sprint a).data ++ [')']

/-- One verb applied to one operand.  Modelled: the verb `v` on every operand,
and the verbs `s`, `d`, `t` on strings, integers and booleans (on an operand
`other` they take the bad-verb branch, which is what `fmt` prints for a
`float64`).  Flags, width, precision, argument indexes and the
other verbs of `fmt` are outside the model: such a character takes the bad-verb
branch here. -/
def formatVerb (verb : Char) (a : Value) : List Char :=
  if verb = 'v' then (Sprint a).data
  else match verb, a with
    | 's', .str s => s.data
    | 'd', .int i => (toString i).data
    | 't', .bool b => (Sprint (.bool b)).data
    | _, _ => badVerb verb a

/-- The trailer `%!(EXTRA type=value, ...)` for operands that no verb used. -/
def extraArgs : List Value → List Char
  | [] => []
  | a :: rest =>
    let one (x : Value) : List Char :=
      match x with
      | .nil => "<nil>".data
      | _ => x.typeName.data ++ ['='] ++ (Sprint x).data
    ['%', '!', '('] ++ "EXTRA ".data ++ one a
      ++ (rest.map (fun x => [',', ' '] ++ one x)).flatten ++ [')']

/-- The scan of `fmt.Sprintf` over the format: literal text is copied, `%%`
prints a percent sign, a verb consumes the next operand (`%!verb(MISSING)` when
there is none), a lone `%` at the end prints `%!(NOVERB)`, and operands left
over are reported at the end. -/
def sprintfAux : List Char → List Value → List Char
  | [], args => extraArgs args
  | c :: rest, args =>
    if c = '%' then
      match rest with
      | [] => ['%', '!', '('] ++ "NOVERB".data ++ [')'] ++ extraArgs args
      | verb :: rest2 =>
        if verb = '%' then '%' :: sprintfAux rest2 args
        else match args with
          | [] => ['%', '!', verb, '('] ++ "MISSING".data ++ [')'] ++ sprintfAux rest2 []
          | a :: args2 => formatVerb verb a ++ sprintfAux rest2 args2
    else c :: sprintfAux rest args

/-- Function `fmt.Sprintf`. -/
def Sprintf (f : String) (args : List Value) : String :=
  ⟨sprintfAux f.data args⟩

/-- Function `fmt.Errorf`: an error whose message is the formatted text. -/
def Errorf (f : String) (args : List Value) : GoError :=
  .errorString (Sprintf f args)

/-! ## The part of `net/url` that the package uses -/

/-- The bytes of the UTF-8 encoding of a character. -/
def utf8Bytes (c : Char) : List Nat :=
  let n := c.toNat
  if n < 0x80 then [n]
  else if n < 0x800 then [0xC0 + n / 64, 0x80 + n % 64]
  else if n < 0x10000 then [0xE0 + n / 4096, 0x80 + n / 64 % 64, 0x80 + n % 64]
  else [0xF0 + n / 262144, 0x80 + n / 4096 % 64, 0x80 + n / 64 % 64, 0x80 + n % 64]

/-- The bytes of a Go string. -/
def bytes (s : String) : List Nat := s.data.flatMap utf8Bytes

/-- The digit of `"0123456789ABCDEF"` at an index below 16. -/
def upperhex (n : Nat) : Char :=
  if n < 10 then Char.ofNat (48 + n) else Char.ofNat (55 + n)

/-- Test `shouldEscape(c, encodeQueryComponent)` of `net/url` on a character:
only the unreserved characters of RFC 3986 (letters, digits, `-`, `_`, `.`,
`~`) are left as they are. -/
def shouldEscape (c : Char) : Bool :=
  !(c.isAlphanum || c = '-' || c = '_' || c = '.' || c = '~')

/-- Function `url.QueryEscape`: a space becomes `+`, every other byte that must be
escaped becomes `%XX` in upper-case hexadecimal. -/
def QueryEscape (s : String) : String :=
  ⟨s.data.flatMap (fun c =>
    if shouldEscape c then
      if c = ' ' then ['+']
      else (utf8Bytes c).flatMap (fun b => ['%', upperhex (b / 16), upperhex (b % 16)])
    else [c])⟩

/-- The value of a hexadecimal digit (function `unhex` of `net/url`). -/
def unhex (c : Char) : Option Nat :=
  if '0' ≤ c ∧ c ≤ '9' then some (c.toNat - 48)
  else if 'a' ≤ c ∧ c ≤ 'f' then some (c.toNat - 87)
  else if 'A' ≤ c ∧ c ≤ 'F' then some (c.toNat - 55)
  else none

/-- Function `url.QueryUnescape`, giving the bytes of the decoded string: `%XX`
is the byte with the hexadecimal value `XX`, `+` is a space, every other
character stands for itself; `none` is the error for a `%` that is not
followed by two hexadecimal digits. -/
def unescapeBytes : List Char → Option (List Nat)
  | [] => some []
  | c :: rest =>
    if c = '%' then
      match rest with
      | a :: b :: rest2 =>
        match unhex a, unhex b, unescapeBytes rest2 with
        | some x, some y, some r => some ((16 * x + y) :: r)
        | _, _, _ => none
      | _ => none
    else if c = '+' then (unescapeBytes rest).map (fun r => 32 :: r)
    else (unescapeBytes rest).map (fun r => utf8Bytes c ++ r)

/-- Type `url.Values`, `map[string][]string`, as an association list with distinct
keys. -/
abbrev Values := List (String × List String)

/-- Method `Values.Add`: `v[key] = append(v[key], value)`. -/
def Values.Add (v : Values) (key value : String) : Values :=
  if v.any (fun e => e.1 = key) then
    v.map (fun e => if e.1 = key then (e.1, e.2 ++ [value]) else e)
  else v ++ [(key, [value])]

/-- The order of `sort.Strings`: byte-wise lexicographic comparison. -/
def lessBytes : List Nat → List Nat → Bool
  | [], [] => false
  | [], _ :: _ => true
  | _ :: _, [] => false
  | a :: as, b :: bs => a < b || (a = b && lessBytes as bs)

/-- The relation `a <= b` on Go strings. -/
def stringLE (a b : String) : Prop := lessBytes (bytes b) (bytes a) = false

instance : DecidableRel stringLE := fun a b => by
  unfold stringLE; infer_instance

/-- Method `Values.Encode`: the keys are sorted; for each key and each of its
values `QueryEscape(key)=QueryEscape(value)` is written to the buffer, after a
`&` when the buffer already holds something. -/
def Values.Encode (v : Values) : String :=
  if v.length = 0 then ""
  else
    let keys := (v.map Prod.fst).insertionSort stringLE
    keys.foldl (fun buf k =>
      let vs := (v.lookup k).getD []
      let keyEscaped := QueryEscape k
      vs.foldl (fun buf val =>
        let buf := if buf.length > 0 then buf ++ "&" else buf
        buf ++ keyEscaped ++ "=" ++ QueryEscape val) buf) ""

/-! ## The part of `net/http`, `encoding/json` and `io/ioutil` that the package uses -/

/-- The body of a response, a stream: the bytes it yields, and the error that
ends it (`none` at a regular end of the stream). -/
structure Body where
  data : String
  err : Option GoError
  deriving DecidableEq, Repr

/-- Function `ioutil.ReadAll`: the bytes read, and the error that stopped the
reading, `nil` when the end of the stream was reached. -/
def ReadAll (b : Body) : String × Option GoError := (b.data, b.err)

/-- Type `http.Response`: the status code and the body. -/
structure Response where
  StatusCode : Int
  Body : Body
  deriving DecidableEq, Repr

/-- Type `http.Request`: the method, the URL as the text it was parsed from, the
header and the bytes of the body. -/
structure Request where
  Method : String
  URL : String
  Header : List (String × String)
  Body : String
  deriving DecidableEq, Repr

/-- Method `Header.Set`: the entry of the key is replaced. -/
def Header.Set (h : List (String × String)) (key value : String) : List (String × String) :=
  (key, value) :: h.filter (fun e => e.1 ≠ key)

/-- Type `http.Client`: what the transport answers to a request. -/
structure HttpClient where
  Do : Request → Except GoError Response

/-- A value passed as the payload `in` of a request: a `json.RawMessage` or any
other Go value, a document of type `Doc`. -/
inductive Payload (Doc : Type) where
  | RawMessage (m : String)
  | doc (d : Doc)

/-- The library functions whose results the package only passes on.
* `Marshal`: `json.Marshal`.
* `NewRequestErr`: the error of `http.NewRequest` for a method and a URL
  (an invalid method, a URL that does not parse), `none` when there is none.
* `DecodeAcknowledgement`, `DecodeError`, `DecodeResult`:
  `json.NewDecoder(body).Decode(&x)` for `x` of type `Acknowledgement`, of type
  `Error`, and of the type `Response` local to `DeleteDocument` (its one
  field, `Result`).
* `Transport`: the value `&http.Client{}`. -/
structure Std (Doc : Type) where
  Marshal : Payload Doc → Except GoError String
  NewRequestErr : String → String → Option GoError
  DecodeAcknowledgement : Body → Except GoError Acknowledgement
  DecodeError : Body → Except GoError Error
  DecodeResult : Body → Except GoError String
  Transport : HttpClient

/-- Function `http.NewRequest`: an empty method stands for `GET`; the request
carries the method, the URL and the body, and an empty header. -/
def NewRequest {Doc : Type} (std : Std Doc) (method url body : String) :
    Except GoError Request :=
  let method := if method = "" then "GET" else method
  match std.NewRequestErr method url with
  | some err => .error err
  | none => .ok { Method := method, URL := url, Header := [], Body := body }

/-- Constant `http.MethodPut`. -/
def MethodPut : String := "PUT"

/-- Constant `http.MethodPost`. -/
def MethodPost : String := "POST"

/-- Constant `http.MethodDelete`. -/
def MethodDelete : String := "DELETE"

/-! ## `type.go`: the message of an `Error` -/

/-- Method `(*Error).Error`.  `none` is the run-time panic of the index
expression `e.Err.RootCause[0]` on an empty slice. -/
def Error.Error (e : Error) : Option String := do
  let r ← e.Err.RootCause[0]?
  let s := Sprintf "type: %s\n" [.str r.Type_]
  let r ← e.Err.RootCause[0]?
  let s := s ++ Sprintf "reason: %s\n" [.str r.Reason]
  return s

/-- Method `Error()` of the interface `error`; `none` is a panic. -/
def GoError.Error : GoError → Option String
  | .errorString msg => some msg
  | .service e => e.Error
  | .external msg => some msg

/-! ## `client.go` -/

/-- Type `Client`. -/
structure Client where
  address : String
  client : HttpClient

section
variable {Doc : Type}

/-- Function `NewClient`. -/
def NewClient (std : Std Doc) (address : String) : Client :=
  { address := "http://" ++ address, client := std.Transport }

/-- Method `endpoint`. -/
def Client.endpoint (c : Client) (f : String) (args : List Value) : String :=
  let s := c.address
  let p := Sprintf f args
  if p.length > 0 then
    let s := if p.get 0 ≠ '/' then s ++ "/" else s
    s ++ p
  else s

/-- The first statements of method `do` (lines 40 to 47): the URL `u`. -/
def Client.doURL (path : String) (query : Q) : String :=
  let u := path
  let values : Values := query.foldl (fun values kv => Values.Add values kv.1 (Sprint kv.2)) []
  let q := Values.Encode values
  if q.length > 0 then u ++ ("?" ++ q) else u

/-- Method `do`. -/
def Client.«do» (std : Std Doc) (c : Client) (method path : String) (query : Q)
    (in_ : Option (Payload Doc)) : Except GoError Response := do
  let u := Client.doURL path query
  let body ← match in_ with
    | none => pure ""
    | some v => std.Marshal v
  let req ← NewRequest std method u body
  let req := { req with Header := Header.Set req.Header "Content-Type" "application/json" }
  let resp ← c.client.Do req
  return resp

/-- Method `checkAcknowledgement`. -/
def Client.checkAcknowledgement (std : Std Doc) (_c : Client) (resp : Response)
    (shards : Bool) : Option GoError :=
  match std.DecodeAcknowledgement resp.Body with
  | .error err => some err
  | .ok ack =>
    if ack.Acknowledged && !shards && !ack.ShardsAcknowledged then none
    else if ack.Acknowledged && shards && ack.ShardsAcknowledged then none
    else some (Errorf "not acknowledged" [])

/-- Method `reportError`. -/
def Client.reportError (std : Std Doc) (_c : Client) (resp : Response) : Option GoError :=
  match std.DecodeError resp.Body with
  | .error err => some err
  | .ok e => some (.service e)

/-- Method `CreateTemplate`. -/
def Client.CreateTemplate (std : Std Doc) (c : Client) (name template : String) :
    Option GoError :=
  let path := c.endpoint "/_template/%s" [.str name]
  match c.do std MethodPut path [] (some (.RawMessage template)) with
  | .error err => some err
  | .ok resp =>
    if resp.StatusCode = 200 ∨ resp.StatusCode = 201 then c.checkAcknowledgement std resp false
    else c.reportError std resp

/-- Method `DeleteTemplate`. -/
def Client.DeleteTemplate (std : Std Doc) (c : Client) (name : String) : Option GoError :=
  let path := c.endpoint "/_template/%s" [.str name]
  match c.do std MethodDelete path [] none with
  | .error err => some err
  | .ok resp =>
    if resp.StatusCode = 200 ∨ resp.StatusCode = 204 then c.checkAcknowledgement std resp false
    else c.reportError std resp

/-- Method `CreateIndex`. -/
def Client.CreateIndex (std : Std Doc) (c : Client) (name : String) : Option GoError :=
  let path := c.endpoint "/%s" [.str name]
  match c.do std MethodPut path [] none with
  | .error err => some err
  | .ok resp =>
    if resp.StatusCode = 200 ∨ resp.StatusCode = 201 then c.checkAcknowledgement std resp true
    else c.reportError std resp

/-- Method `DeleteIndex`. -/
def Client.DeleteIndex (std : Std Doc) (c : Client) (name : String) : Option GoError :=
  let path := c.endpoint "/%s" [.str name]
  match c.do std MethodDelete path [] none with
  | .error err => some err
  | .ok resp =>
    if resp.StatusCode = 200 ∨ resp.StatusCode = 204 then c.checkAcknowledgement std resp false
    else c.reportError std resp

/-- Method `CreateDocument`. -/
def Client.CreateDocument (std : Std Doc) (c : Client) (index id : String)
    (doc : Option (Payload Doc)) : Option GoError :=
  let (path, method) :=
    if id ≠ "" then (c.endpoint "/%s/_doc/%s" [.str index, .str id], MethodPut)
    else (c.endpoint "/%s/_doc" [.str index], MethodPost)
  match c.do std method path [] doc with
  | .error err => some err
  | .ok resp =>
    if resp.StatusCode = 200 ∨ resp.StatusCode = 201 then none
    else c.reportError std resp

/-- Method `DeleteDocument`. -/
def Client.DeleteDocument (std : Std Doc) (c : Client) (index id : String) : Option GoError :=
  let path := c.endpoint "/%s/_doc/%s" [.str index, .str id]
  match c.do std MethodDelete path [] none with
  | .error err => some err
  | .ok resp =>
    if resp.StatusCode = 200 ∨ resp.StatusCode = 204 then
      match std.DecodeResult resp.Body with
      | .error err => some err
      | .ok result =>
        if result = "deleted" then none
        else if result = "not_found" then none
        else some (Errorf "unhandled error" [])
    else c.reportError std resp

/-- Method `SearchDocuments`. -/
def Client.SearchDocuments (std : Std Doc) (c : Client) (index : String) (query : Q)
    (body : String) : String × Option GoError :=
  let path := c.endpoint "/%s/_search" [.str index]
  match c.do std MethodPost path query (some (.RawMessage body)) with
  | .error err => ("", some err)
  | .ok resp =>
    if resp.StatusCode ≠ 200 then ("", c.reportError std resp)
    else
      let (bd, err) := ReadAll resp.Body
      (bd, err)

end

/-! ## A small service, for evaluating the operations

A transport that knows one index, `logs`, and one template, `t`, together with
the library functions on the payloads that its clients send and on the bodies
that it answers.  On these the functions give what the Go library gives;
anything else they refuse. -/

/-- The documents of the clients of the small service: a Go `bool`, and a channel,
a value that `json.Marshal` refuses. -/
inductive ServiceDoc where
  | flag (b : Bool)
  | channel
  deriving DecidableEq, Repr

/-- The search body `{"query":{"match_all":{}}}`. -/
def searchText : String := "\x7b\"query\":\x7b\"match_all\":\x7b\x7d\x7d\x7d"

/-- The template `{"index_patterns":["logs*"]}`. -/
def templateText : String := "\x7b\"index_patterns\":[\"logs*\"]\x7d"

/-- The body `{"acknowledged":true,"shards_acknowledged":true}`. -/
def bodyAckShards : Body :=
  ⟨"\x7b\"acknowledged\":true,\"shards_acknowledged\":true\x7d", none⟩

/-- The body `{"acknowledged":true}`. -/
def bodyAck : Body := ⟨"\x7b\"acknowledged\":true\x7d", none⟩

/-- The body `{"result":"deleted"}`. -/
def bodyDeleted : Body := ⟨"\x7b\"result\":\"deleted\"\x7d", none⟩

/-- The body `{"result":"not_found"}`, which the service sends with status 404
when the document to delete does not exist. -/
def bodyNotFound : Body := ⟨"\x7b\"result\":\"not_found\"\x7d", none⟩

/-- The body of the error `index_not_found_exception` for the index `foo`. -/
def bodyNoIndex : Body :=
  ⟨"\x7b\"error\":\x7b\"root_cause\":[\x7b\"type\":\"index_not_found_exception\","
    ++ "\"reason\":\"no such index [foo]\"\x7d]\x7d\x7d", none⟩

/-- The body `{"hits":[]}` of a search without hits. -/
def bodyHits : Body := ⟨"\x7b\"hits\":[]\x7d", none⟩

/-- A body whose stream breaks after the bytes `{"hi`. -/
def bodyBroken : Body := ⟨"\x7b\"hi", some (.external "unexpected EOF")⟩

/-- The JSON objects that the small service sends, each read to its end. -/
def serviceObjects : List Body :=
  [bodyAckShards, bodyAck, bodyDeleted, bodyNotFound, bodyNoIndex, bodyHits]

/-- What the transport of the small service answers. -/
def serviceDo (req : Request) : Except GoError Response :=
  if req.URL = "http://es:9200/logs" ∧ req.Method = "PUT" then .ok ⟨200, bodyAckShards⟩
  else if req.URL = "http://es:9200/logs" ∧ req.Method = "DELETE" then .ok ⟨200, bodyAck⟩
  else if req.URL = "http://es:9200/_template/t" then .ok ⟨200, bodyAck⟩
  else if req.URL = "http://es:9200/logs/_doc" ∧ req.Method = "POST" then .ok ⟨201, ⟨"", none⟩⟩
  else if req.URL = "http://es:9200/logs/_doc/7" ∧ req.Method = "PUT" then .ok ⟨201, ⟨"", none⟩⟩
  else if req.URL = "http://es:9200/logs/_doc/7" ∧ req.Method = "DELETE" then
    .ok ⟨200, bodyDeleted⟩
  else if req.URL = "http://es:9200/logs/_doc/8" ∧ req.Method = "DELETE" then
    .ok ⟨404, bodyNotFound⟩
  else if req.URL = "http://es:9200/logs/_search" ∨
      req.URL.data.take 28 = "http://es:9200/logs/_search?".data then .ok ⟨200, bodyHits⟩
  else if req.URL = "http://es:9200/broken/_search" then .ok ⟨200, bodyBroken⟩
  else .ok ⟨404, bodyNoIndex⟩

/-- The error of a decoder on a body that is not a JSON object of the service:
the error that broke the stream off, `EOF` for an empty body. -/
def decodeFailure (b : Body) : GoError :=
  match b.err with
  | some e => e
  | none => if b.data = "" then .external "EOF" else .external "json: cannot decode the body"

/-- The text after the host of a URL of the small service: letters, digits, the
marks `/ _ - . ~ ? = & + *`, and `%` followed by two hexadecimal digits. -/
def serviceURLText : List Char → Bool
  | [] => true
  | c :: rest =>
    if c = '%' then
      match rest with
      | a :: b :: rest2 => (unhex a).isSome && (unhex b).isSome && serviceURLText rest2
      | _ => false
    else (c.isAlphanum || "/_-.~?=&+*".data.contains c) && serviceURLText rest

/-- The library functions, on the payloads and bodies of the small service.
* `Marshal` gives a boolean as `true` or `false`, refuses a channel, and gives
  the two raw messages of the service, valid and compact JSON, unchanged.
* `NewRequestErr` accepts a method made of letters and a URL of the host
  `es:9200` with a path and query of `serviceURLText`; it refuses a malformed
  escape such as `%zz`, as `url.Parse` does.
* The decoders decode a JSON object of the service: a field that the object does
  not have keeps its zero value.  They fail on an empty body, with `EOF`, and on
  the body that breaks off, with the error of the stream. -/
def serviceStd : Std ServiceDoc where
  Marshal := fun v =>
    match v with
    | .RawMessage m =>
      if m = searchText ∨ m = templateText then .ok m
      else .error (.external "json: error calling MarshalJSON for type json.RawMessage")
    | .doc (.flag b) => .ok (if b then "true" else "false")
    | .doc .channel => .error (.external "json: unsupported type: chan int")
  NewRequestErr := fun method url =>
    if method = "" ∨ ¬ (method.data.all Char.isAlpha) then
      some (.external "net/http: invalid method")
    else if url.data.take 14 = "http://es:9200".data ∧
        (url.data.drop 14 = [] ∨ (url.data.drop 14).head? = some '/') ∧
        serviceURLText (url.data.drop 14) then none
    else some (.external "net/url: invalid URL")
  DecodeAcknowledgement := fun b =>
    if b = bodyAckShards then .ok ⟨true, true⟩
    else if b = bodyAck then .ok ⟨true, false⟩
    else if b ∈ serviceObjects then .ok ⟨false, false⟩
    else .error (decodeFailure b)
  DecodeError := fun b =>
    if b = bodyNoIndex then .ok ⟨⟨[⟨"index_not_found_exception", "no such index [foo]"⟩]⟩⟩
    else if b ∈ serviceObjects then .ok ⟨⟨[]⟩⟩
    else .error (decodeFailure b)
  DecodeResult := fun b =>
    if b = bodyDeleted then .ok "deleted"
    else if b = bodyNotFound then .ok "not_found"
    else if b ∈ serviceObjects then .ok ""
    else .error (decodeFailure b)
  Transport := ⟨serviceDo⟩

/-- The query parameters of a search: a string, a boolean, an integer, the float
`1.5`, and a nil value under a key that is not ASCII. -/
def serviceQuery : Q :=
  [("q", .str "a b&c=d"), ("pretty", .bool true), ("size", .int 10),
    ("boost", .other "float64" "1.5"), ("né", .nil)]

/-- The client of the small service. -/
def serviceClient : Client := NewClient serviceStd "es:9200"

/-- A transport that answers every request with status 200 and an empty body. -/
def acceptAll : HttpClient := ⟨fun _ => .ok ⟨200, ⟨"", none⟩⟩⟩

/-- A client of the host `es:9200` on the transport `acceptAll`. -/
def acceptingClient : Client := ⟨"http://es:9200", acceptAll⟩

/-! ## Theorems -/

section
variable {Doc : Type}

theorem string_get_zero_cons (c : Char) (cs : List Char) : (String.mk (c :: cs)).get 0 = c := by
  simp [String.get, String.utf8GetAux]

theorem string_length_pos_iff (s : String) : s.length > 0 ↔ s ≠ "" := by
  cases s with
  | mk l =>
    cases l with
    | nil => simp [String.length]
    | cons a as =>
      simp only [String.length, List.length_cons, gt_iff_lt, Nat.zero_lt_succ, true_iff]
      intro h
      have := congrArg String.data h
      simp at this

/-- C1. For a response whose body decodes to an Acknowledgement and for every
flag `shards`, `checkAcknowledgement` returns nil exactly when `acknowledged` is
true and `shards_acknowledged` equals the flag; in every other combination it
returns the error with the message "not acknowledged". -/
theorem checkAcknowledgement_iff (std : Std Doc) (c : Client) (resp : Response)
    (ack : Acknowledgement) (shards : Bool)
    (hdec : std.DecodeAcknowledgement resp.Body = .ok ack) :
    (c.checkAcknowledgement std resp shards = none ↔
        (ack.Acknowledged = true ∧ ack.ShardsAcknowledged = shards)) ∧
      (¬ (ack.Acknowledged = true ∧ ack.ShardsAcknowledged = shards) →
        c.checkAcknowledgement std resp shards = some (.errorString "not acknowledged")) := by
  have herr : Errorf "not acknowledged" [] = .errorString "not acknowledged" := by decide
  obtain ⟨a, s⟩ := ack
  simp only [Client.checkAcknowledgement, hdec, herr]
  cases a <;> cases s <;> cases shards <;> simp

/-- C1, at the small service: the body with both flags set, checked with the flag
`shards` set, is a success. -/
theorem checkAcknowledgement_iff_witness :
    serviceStd.DecodeAcknowledgement (Response.mk 200 bodyAckShards).Body = .ok ⟨true, true⟩ ∧
      ((serviceClient.checkAcknowledgement serviceStd ⟨200, bodyAckShards⟩ true = none ↔
          ((⟨true, true⟩ : Acknowledgement).Acknowledged = true ∧
            (⟨true, true⟩ : Acknowledgement).ShardsAcknowledged = true)) ∧
        (¬ ((⟨true, true⟩ : Acknowledgement).Acknowledged = true ∧
            (⟨true, true⟩ : Acknowledgement).ShardsAcknowledged = true) →
          serviceClient.checkAcknowledgement serviceStd ⟨200, bodyAckShards⟩ true =
            some (.errorString "not acknowledged"))) :=
  ⟨by decide, checkAcknowledgement_iff serviceStd serviceClient ⟨200, bodyAckShards⟩
    ⟨true, true⟩ true (by decide)⟩

theorem sprintf_type (t : String) : Sprintf "type: %s\n" [.str t] = "type: " ++ t ++ "\n" := by
  apply String.ext
  simp [Sprintf, sprintfAux, formatVerb, extraArgs]

theorem sprintf_reason (r : String) :
    Sprintf "reason: %s\n" [.str r] = "reason: " ++ r ++ "\n" := by
  apply String.ext
  simp [Sprintf, sprintfAux, formatVerb, extraArgs]

/-- C2. For an Error whose list of root causes is not empty, with first root cause
of type `t` and reason `r`, the message is exactly `type: t`, a newline,
`reason: r`, a newline, whatever the root causes after the first are. -/
theorem Error_message_first_root_cause (t r : String) (rest : List RootCause) :
    (Error.mk ⟨⟨t, r⟩ :: rest⟩).Error = some ("type: " ++ t ++ "\nreason: " ++ r ++ "\n") ∧
      (GoError.service ⟨⟨⟨t, r⟩ :: rest⟩⟩).Error =
        some ("type: " ++ t ++ "\nreason: " ++ r ++ "\n") ∧
      (Error.mk ⟨[⟨"index_not_found_exception", "no such index [foo]"⟩]⟩).Error =
        some "type: index_not_found_exception\nreason: no such index [foo]\n" := by
  have h : (Error.mk ⟨⟨t, r⟩ :: rest⟩).Error =
      some ("type: " ++ t ++ "\nreason: " ++ r ++ "\n") := by
    simp only [Error.Error, List.getElem?_cons_zero, Option.bind_eq_bind, Option.some_bind,
      sprintf_type, sprintf_reason, Option.pure_def, Option.some.injEq]
    apply String.ext
    simp [String.data_append]
  exact ⟨h, h, by decide⟩

/-- C3. With `base` the text `http://` followed by the address given to
`NewClient` and `p` the formatted fragment: `endpoint` returns `base`, a slash
and `p` when `p` is not empty and does not begin with a slash, and `base`
followed by `p` otherwise; for the empty fragment that is `base`. -/
theorem endpoint_eq (std : Std Doc) (address f : String) (args : List Value) :
    (NewClient std address).endpoint f args =
        (if (Sprintf f args).length > 0 ∧ (Sprintf f args).get 0 ≠ '/' then
          "http://" ++ address ++ "/" ++ Sprintf f args
        else "http://" ++ address ++ Sprintf f args) ∧
      (NewClient std address).endpoint "" [] = "http://" ++ address := by
  constructor
  · simp only [Client.endpoint, NewClient]
    by_cases h1 : (Sprintf f args).length > 0
    · by_cases h2 : (Sprintf f args).get 0 = '/' <;> simp [h1, h2]
    · have h3 : Sprintf f args = "" := by
        by_contra hne
        exact h1 ((string_length_pos_iff _).2 hne)
      simp [h3]
  · have h : Sprintf "" [] = "" := by decide
    simp [Client.endpoint, NewClient, h]

/-- C4, as stated, fails for the empty fragment: the URL is the base address, and
no text `r` makes it the base address, one slash, and `r`. -/
theorem endpoint_empty_fragment_no_separator :
    (serviceClient.endpoint "" [] = "http://es:9200") ∧
      ¬ ∃ r : String, serviceClient.endpoint "" [] = "http://es:9200" ++ "/" ++ r := by
  have h : serviceClient.endpoint "" [] = "http://es:9200" := by decide
  refine ⟨h, ?_⟩
  rintro ⟨r, hr⟩
  rw [h] at hr
  have hlen := congrArg String.length hr
  simp only [String.length_append] at hlen
  have h1 : "http://es:9200".length = 14 := by decide
  have h2 : "/".length = 1 := by decide
  omega

/-- C4, amended. With `p` the formatted fragment: when `p` is empty the URL is the
base address alone; when `p` is a slash followed by `r`, the URL is the base
address, one slash, and `r`; when `p` is not empty and does not begin with a
slash, the URL is the base address, one slash, and `p`. -/
theorem endpoint_one_separator (c : Client) (f : String) (args : List Value) :
    (Sprintf f args = "" ∧ c.endpoint f args = c.address) ∨
      (∃ r : String, Sprintf f args = "/" ++ r ∧ c.endpoint f args = c.address ++ "/" ++ r) ∨
      (Sprintf f args ≠ "" ∧ (Sprintf f args).get 0 ≠ '/' ∧
        c.endpoint f args = c.address ++ "/" ++ Sprintf f args) := by
  simp only [Client.endpoint]
  generalize Sprintf f args = p
  obtain ⟨l⟩ := p
  cases l with
  | nil =>
    left
    exact ⟨rfl, by simp [String.length]⟩
  | cons a as =>
    have hne : String.mk (a :: as) ≠ "" := by
      intro h
      have := congrArg String.data h
      simp at this
    have hlen : (String.mk (a :: as)).length > 0 := (string_length_pos_iff _).2 hne
    by_cases ha : a = '/'
    · right; left
      subst ha
      refine ⟨⟨as⟩, ?_, ?_⟩
      · apply String.ext; simp [String.data_append]
      · simp only [hlen, string_get_zero_cons]
        apply String.ext; simp [String.data_append]
    · right; right
      refine ⟨hne, by simpa [string_get_zero_cons] using ha, ?_⟩
      simp [hlen, string_get_zero_cons, ha]

theorem endpoint_of_slash (c : Client) (f : String) (args : List Value) (rest : List Char)
    (h : Sprintf f args = ⟨'/' :: rest⟩) : c.endpoint f args = c.address ++ ⟨'/' :: rest⟩ := by
  have hlen : (String.mk ('/' :: rest)).length > 0 := by simp [String.length]
  simp [Client.endpoint, h, hlen, string_get_zero_cons]

theorem endpoint_template (c : Client) (name : String) :
    c.endpoint "/_template/%s" [.str name] = c.address ++ "/_template/" ++ name := by
  rw [endpoint_of_slash c _ _ ("_template/".data ++ name.data)]
  · apply String.ext; simp [String.data_append]
  · apply String.ext; simp [Sprintf, sprintfAux, formatVerb, extraArgs]

theorem endpoint_index (c : Client) (name : String) :
    c.endpoint "/%s" [.str name] = c.address ++ "/" ++ name := by
  rw [endpoint_of_slash c _ _ name.data]
  · apply String.ext; simp [String.data_append]
  · apply String.ext; simp [Sprintf, sprintfAux, formatVerb, extraArgs]

theorem endpoint_doc (c : Client) (index : String) :
    c.endpoint "/%s/_doc" [.str index] = c.address ++ "/" ++ index ++ "/_doc" := by
  rw [endpoint_of_slash c _ _ (index.data ++ "/_doc".data)]
  · apply String.ext; simp [String.data_append]
  · apply String.ext; simp [Sprintf, sprintfAux, formatVerb, extraArgs]

theorem endpoint_doc_id (c : Client) (index id : String) :
    c.endpoint "/%s/_doc/%s" [.str index, .str id] =
      c.address ++ "/" ++ index ++ "/_doc/" ++ id := by
  rw [endpoint_of_slash c _ _ (index.data ++ "/_doc/".data ++ id.data)]
  · apply String.ext; simp [String.data_append]
  · apply String.ext; simp [Sprintf, sprintfAux, formatVerb, extraArgs]

theorem endpoint_search (c : Client) (index : String) :
    c.endpoint "/%s/_search" [.str index] = c.address ++ "/" ++ index ++ "/_search" := by
  rw [endpoint_of_slash c _ _ (index.data ++ "/_search".data)]
  · apply String.ext; simp [String.data_append]
  · apply String.ext; simp [Sprintf, sprintfAux, formatVerb, extraArgs]

theorem reportError_ne_none (std : Std Doc) (c : Client) (resp : Response) :
    c.reportError std resp ≠ none := by
  unfold Client.reportError
  cases std.DecodeError resp.Body <;> simp

/-- C5. When the service answers the request `DELETE base/index/_doc/id` with a
response: for status 200 or 204 and a body that decodes to the result `r`,
`DeleteDocument` returns nil exactly when `r` is `deleted` or `not_found`, and
the error "unhandled error" for every other `r`; for every other status it
returns the Error interpretation of the body. -/
theorem DeleteDocument_result (std : Std Doc) (c : Client) (index id : String)
    (resp : Response)
    (hdo : c.do std "DELETE" (c.address ++ "/" ++ index ++ "/_doc/" ++ id) [] none = .ok resp) :
    ((resp.StatusCode = 200 ∨ resp.StatusCode = 204) →
        ∀ r : String, std.DecodeResult resp.Body = .ok r →
          (c.DeleteDocument std index id = none ↔ (r = "deleted" ∨ r = "not_found")) ∧
          (¬ (r = "deleted" ∨ r = "not_found") →
            c.DeleteDocument std index id = some (.errorString "unhandled error"))) ∧
      (¬ (resp.StatusCode = 200 ∨ resp.StatusCode = 204) →
        c.DeleteDocument std index id = c.reportError std resp) := by
  have herr : Errorf "unhandled error" [] = .errorString "unhandled error" := by decide
  have hm : MethodDelete = "DELETE" := rfl
  constructor
  · intro hs r hr
    simp only [Client.DeleteDocument, endpoint_doc_id, hm, hdo, hs, if_true, hr, herr]
    by_cases h1 : r = "deleted"
    · simp [h1]
    · by_cases h2 : r = "not_found" <;> simp [h1, h2]
  · intro hs
    simp only [Client.DeleteDocument, endpoint_doc_id, hm, hdo, hs, if_false]

/-- C5, at the small service: the document 7 of the index `logs` is deleted. -/
theorem DeleteDocument_result_witness :
    serviceClient.do serviceStd "DELETE" (serviceClient.address ++ "/" ++ "logs" ++ "/_doc/" ++ "7")
        [] none = .ok ⟨200, bodyDeleted⟩ ∧
      serviceClient.DeleteDocument serviceStd "logs" "7" = none :=
  ⟨by decide,
    (((DeleteDocument_result serviceStd serviceClient "logs" "7" ⟨200, bodyDeleted⟩
      (by decide)).1 (Or.inl rfl) "deleted" (by decide)).1).2 (Or.inl rfl)⟩

theorem do_request (std : Std Doc) (c : Client) (method path : String) (query : Q)
    (in_ : Option (Payload Doc)) (body : String)
    (hbody : (match in_ with
      | none => Except.ok ""
      | some v => std.Marshal v) = .ok body)
    (hnew : std.NewRequestErr (if method = "" then "GET" else method)
      (Client.doURL path query) = none) :
    c.do std method path query in_ =
      c.client.Do ⟨if method = "" then "GET" else method, Client.doURL path query,
        [("Content-Type", "application/json")], body⟩ := by
  cases in_ with
  | none =>
    simp only [pure, Except.pure] at hbody
    cases hbody
    simp only [Client.do, NewRequest, hnew, Header.Set, bind, Except.bind,
      pure, Except.pure, List.filter_nil]
    cases c.client.Do _ <;> rfl
  | some v =>
    simp only at hbody
    simp only [Client.do, NewRequest, hnew, Header.Set, bind, Except.bind,
      pure, Except.pure, List.filter_nil, hbody]
    cases c.client.Do _ <;> rfl

theorem doURL_no_query (url : String) : Client.doURL url [] = url := by
  have : Values.Encode [] = "" := by decide
  simp [Client.doURL, this]

theorem do_no_query (std : Std Doc) (c : Client) (method url : String)
    (in_ : Option (Payload Doc)) (body : String) (hm : method ≠ "")
    (hbody : (match in_ with
      | none => Except.ok ""
      | some v => std.Marshal v) = .ok body)
    (hnew : std.NewRequestErr method url = none) :
    c.do std method url [] in_ =
      c.client.Do ⟨method, url, [("Content-Type", "application/json")], body⟩ := by
  have h := do_request std c method url [] in_ body hbody
  simp only [hm, if_false, doURL_no_query] at h
  exact h hnew

/-- C6, amended. When the document serialises to `body` and `http.NewRequest`
accepts the method and the URL,
`CreateDocument` hands to the transport one request, with the body `body`:
`POST base/index/_doc` when `id` is empty, `PUT base/index/_doc/id` otherwise.
When the transport answers it with a response, the result is nil exactly when
the status is 200 or 201, whatever the body of the response; for every other
status it is the Error interpretation of the body, which is not nil. -/
theorem CreateDocument_request_result (std : Std Doc) (c : Client) (index id : String)
    (doc : Option (Payload Doc)) (body : String)
    (hbody : (match doc with
      | none => Except.ok ""
      | some v => std.Marshal v) = .ok body)
    (hnew : std.NewRequestErr (if id = "" then "POST" else "PUT")
      (if id = "" then c.address ++ "/" ++ index ++ "/_doc"
        else c.address ++ "/" ++ index ++ "/_doc/" ++ id) = none) :
    (c.CreateDocument std index id doc =
        match c.client.Do
          ⟨if id = "" then "POST" else "PUT",
            if id = "" then c.address ++ "/" ++ index ++ "/_doc"
            else c.address ++ "/" ++ index ++ "/_doc/" ++ id,
            [("Content-Type", "application/json")], body⟩ with
        | .error err => some err
        | .ok resp =>
          if resp.StatusCode = 200 ∨ resp.StatusCode = 201 then none
          else c.reportError std resp) ∧
      (∀ resp : Response,
        c.client.Do
          ⟨if id = "" then "POST" else "PUT",
            if id = "" then c.address ++ "/" ++ index ++ "/_doc"
            else c.address ++ "/" ++ index ++ "/_doc/" ++ id,
            [("Content-Type", "application/json")], body⟩ = .ok resp →
        (c.CreateDocument std index id doc = none ↔
          (resp.StatusCode = 200 ∨ resp.StatusCode = 201)) ∧
        (¬ (resp.StatusCode = 200 ∨ resp.StatusCode = 201) →
          c.CreateDocument std index id doc = c.reportError std resp ∧
          c.reportError std resp ≠ none)) := by
  have hcall : c.CreateDocument std index id doc =
      match c.client.Do
        ⟨if id = "" then "POST" else "PUT",
          if id = "" then c.address ++ "/" ++ index ++ "/_doc"
          else c.address ++ "/" ++ index ++ "/_doc/" ++ id,
          [("Content-Type", "application/json")], body⟩ with
      | .error err => some err
      | .ok resp =>
        if resp.StatusCode = 200 ∨ resp.StatusCode = 201 then none
        else c.reportError std resp := by
    by_cases hid : id = ""
    · simp only [hid, if_true] at hnew ⊢
      simp only [Client.CreateDocument, ne_eq, not_true_eq_false, if_false, endpoint_doc,
        MethodPost]
      rw [do_no_query std c "POST" _ doc body (by decide) hbody hnew]
    · simp only [hid, if_false] at hnew ⊢
      simp only [Client.CreateDocument, ne_eq, hid, not_false_eq_true, if_true,
        endpoint_doc_id, MethodPut]
      rw [do_no_query std c "PUT" _ doc body (by decide) hbody hnew]
  refine ⟨hcall, ?_⟩
  intro resp hresp
  rw [hcall, hresp]
  by_cases hs : resp.StatusCode = 200 ∨ resp.StatusCode = 201
  · simp [hs]
  · simp only [hs, if_false, not_false_eq_true, true_and, forall_const, iff_false]
    exact ⟨reportError_ne_none std c resp, reportError_ne_none std c resp⟩

/-- C6, as stated, fails for an index that makes a malformed URL and for a
document that does not serialise: on a transport that answers every request
with status 200, `CreateDocument` still returns an error, so no request was
issued and there is no response status to decide the result. -/
theorem CreateDocument_no_request :
    (∀ req : Request, acceptingClient.client.Do req = .ok ⟨200, ⟨"", none⟩⟩) ∧
      acceptingClient.CreateDocument serviceStd "%zz" "" (some (.doc (.flag true))) ≠ none ∧
      acceptingClient.CreateDocument serviceStd "logs" "7" (some (.doc .channel)) =
        some (.external "json: unsupported type: chan int") := by
  refine ⟨fun _ => rfl, by decide, by decide⟩

/-- C6 amended, at the small service: the document `true` without id is sent with
`POST` to `http://es:9200/logs/_doc` with the body `true`, and the answer 201
is a success. -/
theorem CreateDocument_request_result_witness :
    serviceStd.Marshal (.doc (.flag true)) = .ok "true" ∧
      serviceStd.NewRequestErr "POST" "http://es:9200/logs/_doc" = none ∧
      serviceClient.client.Do
        ⟨"POST", "http://es:9200/logs/_doc", [("Content-Type", "application/json")], "true"⟩ =
        .ok ⟨201, ⟨"", none⟩⟩ ∧
      serviceClient.CreateDocument serviceStd "logs" "" (some (.doc (.flag true))) = none :=
  ⟨by decide, by decide, by decide,
    (((CreateDocument_request_result serviceStd serviceClient "logs" ""
      (some (.doc (.flag true))) "true"
      (by decide) (by decide)).2 ⟨201, ⟨"", none⟩⟩ (by decide)).1).2 (Or.inr rfl)⟩

/-- C7, as stated, fails for a response with status 200 whose body cannot be read
to its end: `SearchDocuments` returns the bytes read so far together with the
error of the read. -/
theorem SearchDocuments_status_200_read_error :
    serviceStd.Marshal (.RawMessage searchText) = .ok searchText ∧
      serviceClient.do serviceStd "POST" "http://es:9200/broken/_search" []
        (some (.RawMessage searchText)) = .ok ⟨200, bodyBroken⟩ ∧
      serviceClient.SearchDocuments serviceStd "broken" [] searchText =
        ("\x7b\"hi", some (.external "unexpected EOF")) ∧
      (serviceClient.SearchDocuments serviceStd "broken" [] searchText).2 ≠ none := by
  decide

/-- C7, amended. When the service answers the request `POST base/index/_search`
with a response: for status 200 the result is what reading the body gives, the
bytes read, unchanged, with the error of the read, so the whole body and no
error when the body is read to its end; for every other status the result
string is empty and the error is the Error interpretation of the body, which
is not nil. -/
theorem SearchDocuments_result (std : Std Doc) (c : Client) (index : String) (query : Q)
    (body : String) (resp : Response)
    (hdo : c.do std "POST" (c.address ++ "/" ++ index ++ "/_search") query
      (some (.RawMessage body)) = .ok resp) :
    (resp.StatusCode = 200 →
        c.SearchDocuments std index query body = ReadAll resp.Body ∧
        (resp.Body.err = none →
          c.SearchDocuments std index query body = (resp.Body.data, none))) ∧
      (resp.StatusCode ≠ 200 →
        c.SearchDocuments std index query body = ("", c.reportError std resp) ∧
        c.reportError std resp ≠ none) := by
  have hm : MethodPost = "POST" := rfl
  constructor
  · intro hs
    have h : c.SearchDocuments std index query body = ReadAll resp.Body := by
      simp only [Client.SearchDocuments, endpoint_search, hm, hdo, hs, ne_eq,
        not_true_eq_false, if_false]
    refine ⟨h, ?_⟩
    intro he
    rw [h, ReadAll, he]
  · intro hs
    refine ⟨?_, reportError_ne_none std c resp⟩
    simp only [Client.SearchDocuments, endpoint_search, hm, hdo, ne_eq, hs, not_false_eq_true,
      if_true]

/-- C7 amended, at the small service: a search with one query parameter returns
the body of the answer. -/
theorem SearchDocuments_result_witness :
    serviceClient.do serviceStd "POST" (serviceClient.address ++ "/" ++ "logs" ++ "/_search")
        [("size", .int 10)] (some (.RawMessage searchText)) = .ok ⟨200, bodyHits⟩ ∧
      serviceClient.SearchDocuments serviceStd "logs" [("size", .int 10)] searchText =
        (bodyHits.data, none) :=
  ⟨by decide,
    ((SearchDocuments_result serviceStd serviceClient "logs" [("size", .int 10)] searchText
      ⟨200, bodyHits⟩ (by decide)).1 rfl).2 rfl⟩

theorem checkAcknowledgement_none_iff (std : Std Doc) (c : Client) (resp : Response)
    (shards : Bool) :
    c.checkAcknowledgement std resp shards = none ↔
      std.DecodeAcknowledgement resp.Body = .ok ⟨true, shards⟩ := by
  unfold Client.checkAcknowledgement
  cases h : std.DecodeAcknowledgement resp.Body with
  | error e => simp
  | ok ack =>
    obtain ⟨a, s⟩ := ack
    cases a <;> cases s <;> cases shards <;> simp [Errorf]

/-- C8. Each operation, from the response that the service gives to its own
request: `CreateIndex` (`PUT base/name`) returns nil exactly when the status is
200 or 201 and the body decodes to both flags true; `CreateTemplate`
(`PUT base/_template/name`) exactly when the status is 200 or 201 and the body
decodes to `acknowledged` true and `shards_acknowledged` false;
`DeleteTemplate` (`DELETE base/_template/name`) and `DeleteIndex`
(`DELETE base/name`) exactly when the status is 200 or 204 and the body
decodes to `acknowledged` true and `shards_acknowledged` false.  For every
other status each returns the Error interpretation of the body, which is not
nil. -/
theorem acknowledgement_operations (std : Std Doc) (c : Client) :
    (∀ (name : String) (r : Response),
        c.do std "PUT" (c.address ++ "/" ++ name) [] none = .ok r →
        (c.CreateIndex std name = none ↔
          ((r.StatusCode = 200 ∨ r.StatusCode = 201) ∧
            std.DecodeAcknowledgement r.Body = .ok ⟨true, true⟩)) ∧
        (¬ (r.StatusCode = 200 ∨ r.StatusCode = 201) →
          c.CreateIndex std name = c.reportError std r ∧ c.reportError std r ≠ none)) ∧
      (∀ (name template : String) (r : Response),
        c.do std "PUT" (c.address ++ "/_template/" ++ name) []
          (some (.RawMessage template)) = .ok r →
        (c.CreateTemplate std name template = none ↔
          ((r.StatusCode = 200 ∨ r.StatusCode = 201) ∧
            std.DecodeAcknowledgement r.Body = .ok ⟨true, false⟩)) ∧
        (¬ (r.StatusCode = 200 ∨ r.StatusCode = 201) →
          c.CreateTemplate std name template = c.reportError std r ∧
          c.reportError std r ≠ none)) ∧
      (∀ (name : String) (r : Response),
        c.do std "DELETE" (c.address ++ "/_template/" ++ name) [] none = .ok r →
        (c.DeleteTemplate std name = none ↔
          ((r.StatusCode = 200 ∨ r.StatusCode = 204) ∧
            std.DecodeAcknowledgement r.Body = .ok ⟨true, false⟩)) ∧
        (¬ (r.StatusCode = 200 ∨ r.StatusCode = 204) →
          c.DeleteTemplate std name = c.reportError std r ∧ c.reportError std r ≠ none)) ∧
      (∀ (name : String) (r : Response),
        c.do std "DELETE" (c.address ++ "/" ++ name) [] none = .ok r →
        (c.DeleteIndex std name = none ↔
          ((r.StatusCode = 200 ∨ r.StatusCode = 204) ∧
            std.DecodeAcknowledgement r.Body = .ok ⟨true, false⟩)) ∧
        (¬ (r.StatusCode = 200 ∨ r.StatusCode = 204) →
          c.DeleteIndex std name = c.reportError std r ∧ c.reportError std r ≠ none)) := by
  have hput : MethodPut = "PUT" := rfl
  have hdel : MethodDelete = "DELETE" := rfl
  refine ⟨?_, ?_, ?_, ?_⟩
  · intro name r h
    by_cases hs : r.StatusCode = 200 ∨ r.StatusCode = 201
    · simp only [Client.CreateIndex, endpoint_index, hput, h, hs, if_true, true_and,
        not_true_eq_false, false_implies, and_true]
      exact checkAcknowledgement_none_iff std c r true
    · simp only [Client.CreateIndex, endpoint_index, hput, h, hs, if_false, false_and,
        iff_false, not_false_eq_true, true_implies, true_and]
      exact ⟨reportError_ne_none std c r, reportError_ne_none std c r⟩
  · intro name template r h
    by_cases hs : r.StatusCode = 200 ∨ r.StatusCode = 201
    · simp only [Client.CreateTemplate, endpoint_template, hput, h, hs, if_true, true_and,
        not_true_eq_false, false_implies, and_true]
      exact checkAcknowledgement_none_iff std c r false
    · simp only [Client.CreateTemplate, endpoint_template, hput, h, hs, if_false, false_and,
        iff_false, not_false_eq_true, true_implies, true_and]
      exact ⟨reportError_ne_none std c r, reportError_ne_none std c r⟩
  · intro name r h
    by_cases hs : r.StatusCode = 200 ∨ r.StatusCode = 204
    · simp only [Client.DeleteTemplate, endpoint_template, hdel, h, hs, if_true, true_and,
        not_true_eq_false, false_implies, and_true]
      exact checkAcknowledgement_none_iff std c r false
    · simp only [Client.DeleteTemplate, endpoint_template, hdel, h, hs, if_false, false_and,
        iff_false, not_false_eq_true, true_implies, true_and]
      exact ⟨reportError_ne_none std c r, reportError_ne_none std c r⟩
  · intro name r h
    by_cases hs : r.StatusCode = 200 ∨ r.StatusCode = 204
    · simp only [Client.DeleteIndex, endpoint_index, hdel, h, hs, if_true, true_and,
        not_true_eq_false, false_implies, and_true]
      exact checkAcknowledgement_none_iff std c r false
    · simp only [Client.DeleteIndex, endpoint_index, hdel, h, hs, if_false, false_and,
        iff_false, not_false_eq_true, true_implies, true_and]
      exact ⟨reportError_ne_none std c r, reportError_ne_none std c r⟩

/-- C8, at the small service: the index `logs` is created and deleted and the
template `t` is put and deleted, each with success; creating the index `foo`
is answered with status 404 and returns the Service Error of the body. -/
theorem acknowledgement_operations_witness :
    (serviceClient.do serviceStd "PUT" (serviceClient.address ++ "/" ++ "logs") [] none =
        .ok ⟨200, bodyAckShards⟩ ∧
      serviceClient.do serviceStd "PUT" (serviceClient.address ++ "/_template/" ++ "t") []
        (some (.RawMessage templateText)) = .ok ⟨200, bodyAck⟩ ∧
      serviceClient.do serviceStd "DELETE" (serviceClient.address ++ "/_template/" ++ "t") []
        none = .ok ⟨200, bodyAck⟩ ∧
      serviceClient.do serviceStd "DELETE" (serviceClient.address ++ "/" ++ "logs") [] none =
        .ok ⟨200, bodyAck⟩ ∧
      serviceClient.do serviceStd "PUT" (serviceClient.address ++ "/" ++ "foo") [] none =
        .ok ⟨404, bodyNoIndex⟩) ∧
      serviceClient.CreateIndex serviceStd "logs" = none ∧
      serviceClient.CreateTemplate serviceStd "t" templateText = none ∧
      serviceClient.DeleteTemplate serviceStd "t" = none ∧
      serviceClient.DeleteIndex serviceStd "logs" = none ∧
      serviceClient.CreateIndex serviceStd "foo" =
        serviceClient.reportError serviceStd ⟨404, bodyNoIndex⟩ :=
  have h := acknowledgement_operations serviceStd serviceClient
  ⟨by decide,
    (h.1 "logs" ⟨200, bodyAckShards⟩ (by decide)).1.2 ⟨Or.inl rfl, by decide⟩,
    (h.2.1 "t" templateText ⟨200, bodyAck⟩ (by decide)).1.2 ⟨Or.inl rfl, by decide⟩,
    (h.2.2.1 "t" ⟨200, bodyAck⟩ (by decide)).1.2 ⟨Or.inl rfl, by decide⟩,
    (h.2.2.2 "logs" ⟨200, bodyAck⟩ (by decide)).1.2 ⟨Or.inl rfl, by decide⟩,
    ((h.1 "foo" ⟨404, bodyNoIndex⟩ (by decide)).2 (by decide)).1⟩

/-- C9. The code does not reject an error body without root causes. At the small
service, deleting a document that does not exist is answered with status 404
and the body `{"result":"not_found"}`; the body decodes to an Error with an
empty list of root causes, `reportError` returns that Error, `DeleteDocument`
returns it, and rendering its message panics on the index expression. -/
theorem reportError_empty_root_cause_panics :
    serviceClient.do serviceStd "DELETE" "http://es:9200/logs/_doc/8" [] none =
        .ok ⟨404, bodyNotFound⟩ ∧
      serviceStd.DecodeError bodyNotFound = .ok ⟨⟨[]⟩⟩ ∧
      serviceClient.reportError serviceStd ⟨404, bodyNotFound⟩ = some (.service ⟨⟨[]⟩⟩) ∧
      serviceClient.DeleteDocument serviceStd "logs" "8" = some (.service ⟨⟨[]⟩⟩) ∧
      (GoError.service ⟨⟨[]⟩⟩).Error = none := by
  decide

/-- Whatever the library functions are: an error body that decodes to an Error
without root causes is returned by `reportError` as that Error, and its message
cannot be rendered. -/
theorem reportError_empty_root_cause (std : Std Doc) (c : Client) (resp : Response) (e : Error)
    (hdec : std.DecodeError resp.Body = .ok e) (hempty : e.Err.RootCause = []) :
    c.reportError std resp = some (.service e) ∧ (GoError.service e).Error = none := by
  simp [Client.reportError, hdec, GoError.Error, Error.Error, hempty]

/-! ### The query string -/

theorem Values_Add_fresh (v : Values) (key value : String) (h : ∀ e ∈ v, e.1 ≠ key) :
    Values.Add v key value = v ++ [(key, [value])] := by
  have hany : v.any (fun e => decide (e.1 = key)) = false := by
    rw [List.any_eq_false]
    intro e he
    simpa using h e he
  simp [Values.Add, hany]

theorem fold_Add (query : Q) :
    ∀ acc : Values, (acc.map Prod.fst ++ query.map Prod.fst).Nodup →
      query.foldl (fun values kv => Values.Add values kv.1 (Sprint kv.2)) acc =
        acc ++ query.map (fun kv => (kv.1, [Sprint kv.2])) := by
  induction query with
  | nil => intro acc _; simp
  | cons kv rest ih =>
    intro acc hnd
    have hfresh : ∀ e ∈ acc, e.1 ≠ kv.1 := by
      intro e he heq
      rw [List.nodup_append] at hnd
      exact hnd.2.2 (List.mem_map_of_mem Prod.fst he) (by simp [heq])
    simp only [List.foldl_cons, Values_Add_fresh acc kv.1 _ hfresh]
    rw [ih]
    · simp
    · simpa [List.map_append, List.append_assoc] using hnd

theorem lookup_of_mem (query : Q) (hwf : Q.WF query) :
    ∀ kv ∈ query,
      (query.map (fun kv => (kv.1, [Sprint kv.2]))).lookup kv.1 = some [Sprint kv.2] := by
  induction query with
  | nil => intro kv h; cases h
  | cons a rest ih =>
    intro kv hkv
    unfold Q.WF at hwf
    simp only [List.map_cons, List.nodup_cons] at hwf
    simp only [List.map_cons, List.lookup_cons]
    rcases List.mem_cons.1 hkv with h | h
    · subst h; simp
    · have hne : kv.1 ≠ a.1 := by
        intro heq
        exact hwf.1 (heq ▸ List.mem_map_of_mem Prod.fst h)
      have hb : (kv.1 == a.1) = false := by simpa using hne
      rw [hb]
      exact ih hwf.2 kv h

/-- One step of the buffer of `Values.Encode`. -/
theorem fold_join_nonempty (segs : List String) :
    ∀ buf : String, buf ≠ "" →
      segs.foldl (fun buf seg => (if buf.length > 0 then buf ++ "&" else buf) ++ seg) buf =
        String.intercalate.go buf "&" segs := by
  induction segs with
  | nil => intro buf _; rfl
  | cons a rest ih =>
    intro buf hbuf
    have hpos : buf.length > 0 := (string_length_pos_iff buf).2 hbuf
    simp only [List.foldl_cons, hpos, if_true, String.intercalate.go]
    apply ih
    intro h
    have := congrArg String.length h
    simp only [String.length_append] at this
    have h0 : "".length = 0 := rfl
    omega

theorem fold_join (segs : List String) (hne : ∀ s ∈ segs, s ≠ "") :
    segs.foldl (fun buf seg => (if buf.length > 0 then buf ++ "&" else buf) ++ seg) "" =
      "&".intercalate segs := by
  cases segs with
  | nil => rfl
  | cons a rest =>
    have h0 : ¬ ("".length > 0) := by decide
    simp only [List.foldl_cons, h0, if_false, String.empty_append, String.intercalate]
    exact fold_join_nonempty rest a (hne a (List.mem_cons_self _ _))

theorem fold_flatMap {κ σ β : Type} (J : β → σ → β) (h : κ → List σ) (ks : List κ) :
    ∀ b : β, ks.foldl (fun b k => (h k).foldl J b) b = (ks.flatMap h).foldl J b := by
  induction ks with
  | nil => intro b; rfl
  | cons k rest ih =>
    intro b
    simp only [List.foldl_cons, List.flatMap_cons, List.foldl_append]
    exact ih _

theorem pair_ne_empty (a b : String) : a ++ "=" ++ b ≠ "" := by
  intro h
  have := congrArg String.length h
  simp only [String.length_append] at this
  have h0 : "".length = 0 := rfl
  have h1 : "=".length = 1 := rfl
  omega

theorem Encode_eq (v : Values) (hv : v ≠ []) :
    Values.Encode v =
      "&".intercalate (((v.map Prod.fst).insertionSort stringLE).flatMap (fun k =>
        ((v.lookup k).getD []).map (fun val => QueryEscape k ++ "=" ++ QueryEscape val))) := by
  have hlen : ¬ (v.length = 0) := by
    intro h
    exact hv (List.length_eq_zero.1 h)
  rw [← fold_join]
  · simp only [Values.Encode, hlen, if_false]
    rw [← fold_flatMap]
    apply List.foldl_ext
    intro buf k _
    rw [List.foldl_map]
    simp only [String.append_assoc]
  · intro s hs
    simp only [List.mem_flatMap, List.mem_map] at hs
    obtain ⟨k, _, val, _, rfl⟩ := hs
    exact pair_ne_empty _ _

theorem go_length (s : String) (l : List String) :
    ∀ acc : String, acc.length ≤ (String.intercalate.go acc s l).length := by
  induction l with
  | nil => intro acc; exact Nat.le_refl _
  | cons a rest ih =>
    intro acc
    simp only [String.intercalate.go]
    refine Nat.le_trans ?_ (ih _)
    simp only [String.length_append]
    omega

theorem segments_of_keys (query : Q) (hwf : Q.WF query) :
    ∀ l : List (String × Value), (∀ kv ∈ l, kv ∈ query) →
      (l.map Prod.fst).flatMap (fun k =>
          (((query.map (fun kv => (kv.1, [Sprint kv.2]))).lookup k).getD []).map
            (fun val => QueryEscape k ++ "=" ++ QueryEscape val)) =
        l.map (fun kv => QueryEscape kv.1 ++ "=" ++ QueryEscape (Sprint kv.2)) := by
  intro l
  induction l with
  | nil => intro _; rfl
  | cons a rest ih =>
    intro h
    simp only [List.map_cons, List.flatMap_cons,
      lookup_of_mem query hwf a (h a (List.mem_cons_self _ _)), Option.getD_some]
    rw [ih (fun kv hkv => h kv (List.mem_cons_of_mem _ hkv))]
    rfl

theorem intercalate_length_pos (segs : List String) (hne : segs ≠ [])
    (hall : ∀ s ∈ segs, s ≠ "") : ("&".intercalate segs).length > 0 := by
  cases segs with
  | nil => exact absurd rfl hne
  | cons a rest =>
    have ha : a.length > 0 := (string_length_pos_iff a).2 (hall a (List.mem_cons_self _ _))
    have := go_length "&" rest a
    simp only [String.intercalate]
    omega

/-! ### The escaping of keys and values -/

theorem unhex_upperhex (n : Nat) (hn : n < 16) : unhex (upperhex n) = some n := by
  interval_cases n <;> decide

theorem upperhex_isAlphanum (n : Nat) (hn : n < 16) : (upperhex n).isAlphanum = true := by
  interval_cases n <;> decide

theorem utf8Bytes_lt (c : Char) : ∀ b ∈ utf8Bytes c, b < 256 := by
  have hv := c.valid
  simp only [UInt32.isValidChar, Nat.isValidChar] at hv
  have hn : c.toNat < 1114112 := by
    simp only [Char.toNat]
    omega
  intro b hb
  unfold utf8Bytes at hb
  simp only at hb
  split_ifs at hb <;> simp only [List.mem_cons, List.mem_singleton, List.not_mem_nil,
    or_false] at hb <;> omega

theorem unescapeBytes_hex (bs : List Nat) (hbs : ∀ b ∈ bs, b < 256) (rest : List Char)
    (r : List Nat) (hr : unescapeBytes rest = some r) :
    unescapeBytes
        (bs.flatMap (fun b => ['%', upperhex (b / 16), upperhex (b % 16)]) ++ rest) =
      some (bs ++ r) := by
  induction bs with
  | nil => simpa using hr
  | cons b tl ih =>
    have hb : b < 256 := hbs b (List.mem_cons_self _ _)
    have h1 : unhex (upperhex (b / 16)) = some (b / 16) := unhex_upperhex _ (by omega)
    have h2 : unhex (upperhex (b % 16)) = some (b % 16) := unhex_upperhex _ (by omega)
    have ih2 := ih (fun x hx => hbs x (List.mem_cons_of_mem _ hx))
    have e : (b :: tl).flatMap (fun b => ['%', upperhex (b / 16), upperhex (b % 16)]) ++ rest =
        '%' :: upperhex (b / 16) :: upperhex (b % 16) ::
          (tl.flatMap (fun b => ['%', upperhex (b / 16), upperhex (b % 16)]) ++ rest) := by
      simp [List.flatMap_cons]
    rw [e, unescapeBytes, if_pos rfl]
    simp only [h1, h2, ih2, List.cons_append, Option.some.injEq, List.cons.injEq, and_true]
    omega

theorem unescapeBytes_plain (c : Char) (hc : shouldEscape c = false) (rest : List Char)
    (r : List Nat) (hr : unescapeBytes rest = some r) :
    unescapeBytes (c :: rest) = some (utf8Bytes c ++ r) := by
  have h1 : c ≠ '%' := by
    intro h
    subst h
    exact absurd hc (by decide)
  have h2 : c ≠ '+' := by
    intro h
    subst h
    exact absurd hc (by decide)
  unfold unescapeBytes
  simp only [h1, h2, if_false, hr]
  rfl

theorem unescapeBytes_escaped (c : Char) (rest : List Char) (r : List Nat)
    (hr : unescapeBytes rest = some r) :
    unescapeBytes
        ((if shouldEscape c then
            if c = ' ' then ['+']
            else (utf8Bytes c).flatMap (fun b => ['%', upperhex (b / 16), upperhex (b % 16)])
          else [c]) ++ rest) = some (utf8Bytes c ++ r) := by
  by_cases hs : shouldEscape c = true
  · by_cases hsp : c = ' '
    · subst hsp
      simp only [hs, if_true, List.singleton_append]
      unfold unescapeBytes
      have h1 : ¬ ('+' = '%') := by decide
      simp only [h1, if_false, if_true, hr]
      rfl
    · simp only [hs, if_true, hsp, if_false]
      exact unescapeBytes_hex _ (utf8Bytes_lt c) rest r hr
  · have hs2 : shouldEscape c = false := by simpa using hs
    simp only [hs2, Bool.false_eq_true, if_false, List.singleton_append]
    exact unescapeBytes_plain c hs2 rest r hr

theorem QueryEscape_unescape (s : String) : unescapeBytes (QueryEscape s).data = some (bytes s) := by
  obtain ⟨l⟩ := s
  simp only [QueryEscape, bytes]
  induction l with
  | nil => rfl
  | cons c rest ih =>
    simp only [List.flatMap_cons]
    exact unescapeBytes_escaped c _ _ ih

theorem QueryEscape_alphabet (s : String) :
    ∀ ch ∈ (QueryEscape s).data,
      ch.isAlphanum = true ∨ ch ∈ ['-', '_', '.', '~', '+', '%'] := by
  intro ch hch
  simp only [QueryEscape, List.mem_flatMap] at hch
  obtain ⟨c, _, hc⟩ := hch
  by_cases hs : shouldEscape c = true
  · by_cases hsp : c = ' '
    · subst hsp
      simp only [hs, if_true, List.mem_singleton] at hc
      subst hc
      right
      decide
    · simp only [hs, if_true, hsp, if_false, List.mem_flatMap, List.mem_cons,
        List.mem_singleton, List.not_mem_nil, or_false] at hc
      obtain ⟨b, hb, h | h | h⟩ := hc
      · subst h
        right
        decide
      · subst h
        left
        exact upperhex_isAlphanum _ (by have := utf8Bytes_lt c b hb; omega)
      · subst h
        left
        exact upperhex_isAlphanum _ (by omega)
  · have hs2 : shouldEscape c = false := by simpa using hs
    simp only [hs2, Bool.false_eq_true, if_false, List.mem_singleton] at hc
    subst hc
    simp only [shouldEscape, Bool.not_eq_false', Bool.or_eq_true, decide_eq_true_eq] at hs2
    rcases hs2 with (((h | h) | h) | h) | h
    · left; exact h
    · right; subst h; decide
    · right; subst h; decide
    · right; subst h; decide
    · right; subst h; decide

/-- C10. For every path and every query map (distinct keys, as in every Go map):
for the empty map the URL that `do` builds is the path, nothing appended; for
a non-empty map it is the path, a question mark, and the join with `&` of
segments that are, in some order, exactly the texts
`QueryEscape(key)=QueryEscape(fmt.Sprint(value))` of the entries of the map.
`QueryEscape` is a URL encoding: its result holds only letters, digits and the
marks `- _ . ~ + %`, and `QueryUnescape` gives back the bytes of the text.
`do` hands this URL to the transport whenever the payload serialises and
`http.NewRequest` accepts the request. -/
theorem do_url_query (std : Std Doc) (c : Client) (method path : String) (query : Q)
    (in_ : Option (Payload Doc)) (hwf : Q.WF query) :
    (query = [] → Client.doURL path query = path) ∧
      (query ≠ [] →
        ∃ segs : List String,
          segs.Perm (query.map
            (fun kv => QueryEscape kv.1 ++ "=" ++ QueryEscape (Sprint kv.2))) ∧
          Client.doURL path query = path ++ "?" ++ "&".intercalate segs) ∧
      (∀ s : String,
        (∀ ch ∈ (QueryEscape s).data,
          ch.isAlphanum = true ∨ ch ∈ ['-', '_', '.', '~', '+', '%']) ∧
        unescapeBytes (QueryEscape s).data = some (bytes s)) ∧
      (∀ body : String,
        (match in_ with
          | none => Except.ok ""
          | some v => std.Marshal v) = .ok body →
        std.NewRequestErr (if method = "" then "GET" else method)
          (Client.doURL path query) = none →
        c.do std method path query in_ =
          c.client.Do ⟨if method = "" then "GET" else method, Client.doURL path query,
            [("Content-Type", "application/json")], body⟩) := by
  refine ⟨?_, ?_, fun s => ⟨QueryEscape_alphabet s, QueryEscape_unescape s⟩,
    fun body hbody hnew => do_request std c method path query in_ body hbody hnew⟩
  · intro h
    rw [h, doURL_no_query]
  · intro hq
    have hvals : query.foldl (fun values kv => Values.Add values kv.1 (Sprint kv.2)) [] =
        query.map (fun kv => (kv.1, [Sprint kv.2])) := by
      have := fold_Add query [] (by simpa [Q.WF] using hwf)
      simpa using this
    have hv : query.map (fun kv => (kv.1, [Sprint kv.2])) ≠ [] := by
      intro h
      exact hq (List.map_eq_nil_iff.1 h)
    have hkeys : (query.map (fun kv => (kv.1, [Sprint kv.2]))).map Prod.fst =
        query.map Prod.fst := by
      simp [List.map_map, Function.comp_def]
    have hperm : ((((query.map (fun kv => (kv.1, [Sprint kv.2]))).map Prod.fst).insertionSort
        stringLE).flatMap (fun k =>
          (((query.map (fun kv => (kv.1, [Sprint kv.2]))).lookup k).getD []).map
            (fun val => QueryEscape k ++ "=" ++ QueryEscape val))).Perm
        (query.map (fun kv => QueryEscape kv.1 ++ "=" ++ QueryEscape (Sprint kv.2))) := by
      rw [← segments_of_keys query hwf query (fun _ h => h), ← hkeys]
      exact List.Perm.flatMap_right _ (List.perm_insertionSort _ _)
    refine ⟨_, hperm, ?_⟩
    simp only [Client.doURL, hvals, Encode_eq _ hv]
    rw [if_pos, String.append_assoc]
    apply intercalate_length_pos
    · intro h
      rw [h] at hperm
      exact hq (List.map_eq_nil_iff.1 (List.Perm.nil_eq hperm).symm)
    · intro s hs
      have := (List.Perm.mem_iff hperm).1 hs
      simp only [List.mem_map] at this
      obtain ⟨kv, _, rfl⟩ := this
      exact pair_ne_empty _ _

/-- C10, at the small service: the search with the parameters `serviceQuery`. The
space, `&` and `=` of the value of `q`, the key `né` and the text `<nil>` are
escaped, and the URL goes to the transport. -/
theorem do_url_query_witness :
    Q.WF serviceQuery ∧
      (∃ segs : List String,
        segs.Perm ["q=a+b%26c%3Dd", "pretty=true", "size=10", "boost=1.5",
          "n%C3%A9=%3Cnil%3E"] ∧
        Client.doURL "http://es:9200/logs/_search" serviceQuery =
          "http://es:9200/logs/_search" ++ "?" ++ "&".intercalate segs) ∧
      Client.doURL "http://es:9200/logs/_search" serviceQuery =
        "http://es:9200/logs/_search?boost=1.5&n%C3%A9=%3Cnil%3E&pretty=true"
          ++ "&q=a+b%26c%3Dd&size=10" ∧
      unescapeBytes "a+b%26c%3Dd".data = some (bytes "a b&c=d") ∧
      serviceClient.do serviceStd "POST" "http://es:9200/logs/_search" serviceQuery
          (some (.RawMessage searchText)) =
        serviceClient.client.Do ⟨"POST",
          "http://es:9200/logs/_search?boost=1.5&n%C3%A9=%3Cnil%3E&pretty=true"
            ++ "&q=a+b%26c%3Dd&size=10",
          [("Content-Type", "application/json")], searchText⟩ :=
  have h := do_url_query serviceStd serviceClient "POST" "http://es:9200/logs/_search"
    serviceQuery (some (.RawMessage searchText)) (by decide)
  ⟨by decide, h.2.1 (by decide), by decide, (h.2.2.1 "a b&c=d").2,
    h.2.2.2 searchText (by decide) (by decide)⟩

end

end Elasticsearch
